import Mathlib

/-!
Shallow embedding of the Nexus Miners game engine (`game.py`).

Conventions of the embedding:
* Python dicts keyed by coordinates/edges become association lists
  (`List (key × value)`), preserving insertion order; dict-style update
  (`d[k] = v`) is `dictSet` (replace in place if the key exists, else append),
  `del d[k]` is `eraseConduit`, `d.get(k)` is `lookupConduit`.
* Python sets become `Finset`.
* Python exceptions (missing dict keys, out-of-range list indexing) are
  modelled by `Option`: a function returns `none` where the Python code
  would raise.
* `random.shuffle` is modelled by an explicit permutation parameter.
* Machine integers do not overflow in Python; action points are `Int`.
-/

-- --- Constants for Game Balance ---
def GRID_RADIUS : Nat := 4
def BASE_AP_PER_TURN : Int := 4
def RESOURCE_BONUS_AP : Int := 1
def WIN_CONDITION_RESOURCES : Nat := 3

-- --- ActionPayload Point Costs ---
def COST_PLACE_CONDUIT : Int := 1
def COST_REINFORCE_CONDUIT : Int := 2
def COST_SABOTAGE_CONDUIT : Int := 3

-- Axial coordinates (q, r) for the hex grid.
abbrev HexCoord := Int × Int

-- An edge between two hexes, stored as a sorted (canonical) pair.
abbrev Edge := HexCoord × HexCoord

-- Python's `tuple(sorted((a, b)))` on two coordinate pairs: lexicographic order.
def mkEdge (a b : HexCoord) : Edge :=
  if a.1 < b.1 ∨ (a.1 = b.1 ∧ a.2 ≤ b.2) then (a, b) else (b, a)

/-- A single hexagonal tile on the game board (class `Hex`). -/
structure Hex where
  q : Int
  r : Int
  resource : Option String
  is_base_for : Option String
deriving DecidableEq

-- `self.s = -q - r`, a derived coordinate.
def Hex.s (h : Hex) : Int := -h.q - h.r

def Hex.coordinates (h : Hex) : HexCoord := (h.q, h.r)

/-- A player (class `Player`).  `base_hex` is `None` in Python only between
`Player.__init__` and `Board._place_special_hexes`, where nothing reads it;
the embedding keeps it as a plain coordinate. -/
structure Player where
  id : String
  name : String
  color : String
  action_points : Int
  base_hex : HexCoord
deriving DecidableEq

/-- Value stored in the conduit dict: `{"player_id": ..., "reinforced": ...}`. -/
structure Conduit where
  player_id : String
  reinforced : Bool
deriving DecidableEq

/-- The game board (class `Board`). -/
structure Board where
  radius : Nat
  hexes : List (HexCoord × Hex)
  conduits : List (Edge × Conduit)
deriving DecidableEq

/-- The orchestrating game state (class `Game`).  `winner` holds a snapshot of
the winning player (in Python, a reference; the game never mutates players
after the winner is set, so a snapshot is equivalent). -/
structure Game where
  players : List Player
  board : Board
  turn_number : Nat
  current_player_idx : Nat
  game_over : Bool
  winner : Option Player
  message : String
deriving DecidableEq

/-- An action payload dict.  The engine reads exactly the keys `type`, `hex1`,
`hex2`; `none` models a missing (or non-coordinate) entry, whose access via
`action[...]` raises in Python. -/
structure ActionPayload where
  type : Option String
  hex1 : Option HexCoord
  hex2 : Option HexCoord
deriving DecidableEq

/-- One entry of the `player_details` argument of `Game.__init__`. -/
structure PlayerDetail where
  id : String
  name : String
  color : String
deriving DecidableEq

-- --- dict helpers (insertion-ordered association lists) ---

def lookupConduit (cs : List (Edge × Conduit)) (e : Edge) : Option Conduit :=
  (cs.find? (fun kv => kv.1 = e)).map (·.2)

/-- Python dict assignment `d[k] = v`: update in place if present, else append. -/
def dictSet (cs : List (Edge × Conduit)) (e : Edge) (c : Conduit) :
    List (Edge × Conduit) :=
  if cs.any (fun kv => kv.1 = e) then
    cs.map (fun kv => if kv.1 = e then (e, c) else kv)
  else cs ++ [(e, c)]

/-- Python `del d[k]` (the engine only deletes keys it has just looked up). -/
def eraseConduit (cs : List (Edge × Conduit)) (e : Edge) : List (Edge × Conduit) :=
  cs.eraseP (fun kv => kv.1 = e)

-- --- Board generation ---

-- Python `range(-radius, radius + 1)` as a list of `Int`.
def axialRange (radius : Nat) : List Int :=
  (List.range (2 * radius + 1)).map (fun i => (i : Int) - radius)

/-- `Board._generate_grid`: all (q, r) with q, r and -q-r in [-radius, radius],
in the iteration order of the Python loops. -/
def generateGrid (radius : Nat) : List (HexCoord × Hex) :=
  (axialRange radius).flatMap (fun q =>
    ((axialRange radius).filter
      (fun r => decide (-(radius : Int) ≤ -q - r ∧ -q - r ≤ (radius : Int)))).map
        (fun r => ((q, r), Hex.mk q r none none)))

-- `max(abs(h.q), abs(h.r), abs(h.s))`.
def hexRing (h : Hex) : Nat := max h.q.natAbs (max h.r.natAbs h.s.natAbs)

def setResource (hexes : List (HexCoord × Hex)) (c : HexCoord) (res : Option String) :
    List (HexCoord × Hex) :=
  hexes.map (fun kv => if kv.1 = c then (kv.1, { kv.2 with resource := res }) else kv)

def setBaseFor (hexes : List (HexCoord × Hex)) (c : HexCoord) (pid : Option String) :
    List (HexCoord × Hex) :=
  hexes.map (fun kv => if kv.1 = c then (kv.1, { kv.2 with is_base_for := pid }) else kv)

/-- The base-assignment loop of `Board._place_special_hexes`: player `i` gets
`edge_hexes[i * stride]` as its base, and that hex is marked `is_base_for`. -/
def markBasesAux (edgeHexes : List HexCoord) (stride : Nat) :
    Nat → List Player → List (HexCoord × Hex) →
    List (HexCoord × Hex) × List Player
  | _, [], hexes => (hexes, [])
  | i, p :: ps, hexes =>
    let b := edgeHexes.getD (i * stride) ((0 : Int), (0 : Int))
    let hexes' := setBaseFor hexes b (some p.id)
    let (hexes'', ps') := markBasesAux edgeHexes stride (i + 1) ps hexes'
    (hexes'', { p with base_hex := b } :: ps')

def resourceTypes : List String := ["IRON", "CARBON", "POWER"]

/-- `Board._place_special_hexes`.  `shuffleSpots` stands for `random.shuffle`
of the potential resource spots (an arbitrary permutation). -/
def placeSpecialHexes (hexes₀ : List (HexCoord × Hex)) (players : List Player)
    (shuffleSpots : List HexCoord → List HexCoord) :
    List (HexCoord × Hex) × List Player :=
  let edgeHexes := ((hexes₀.filter (fun kv => hexRing kv.2 = GRID_RADIUS)).map
    (fun kv => kv.2.coordinates))
  -- Place Nexus in the center
  let hexes₁ := setResource hexes₀ ((0 : Int), (0 : Int)) (some "NEXUS")
  -- Place player bases on the edges, spaced out
  let stride := edgeHexes.length / players.length
  let (hexes₂, players') := markBasesAux edgeHexes stride 0 players hexes₁
  -- Place resources on internal hexes (those still without a resource)
  let potential := shuffleSpots ((hexes₂.filter
    (fun kv => hexRing kv.2 < GRID_RADIUS && kv.2.resource.isNone)).map
      (fun kv => kv.2.coordinates))
  let num := min potential.length (max 9 (players.length * 3))
  let hexes₃ := (List.range num).foldl
    (fun hx i => setResource hx (potential.getD i ((0 : Int), (0 : Int)))
      (some (resourceTypes.getD (i % 3) ""))) hexes₂
  (hexes₃, players')

-- The keys of the board's hex dict.
def boardKeys (b : Board) : List HexCoord := b.hexes.map (·.1)

-- Directions in axial coordinates
def hexDirections : List (Int × Int) :=
  [(1, 0), (0, 1), (-1, 1), (-1, 0), (0, -1), (1, -1)]

/-- The neighbor computation of `Board.get_neighbors`, parameterized by the
set of existing hex coordinates. -/
def neighborsIn (hexKeys : List HexCoord) (c : HexCoord) : List HexCoord :=
  (hexDirections.map (fun d => (c.1 + d.1, c.2 + d.2))).filter
    (fun n => decide (n ∈ hexKeys))

/-- `Board.get_neighbors`. -/
def Board.get_neighbors (b : Board) (hex_coord : HexCoord) : List HexCoord :=
  neighborsIn (boardKeys b) hex_coord

-- --- Network reachability (`Game._is_connected`) ---

/-- The player's conduit edge set:
`{edge for edge, data in conduits.items() if data['player_id'] == player.id}`. -/
def playerConduits (cs : List (Edge × Conduit)) (pid : String) : List Edge :=
  (cs.filter (fun kv => kv.2.player_id = pid)).map (·.1)

/-- The BFS loop of `Game._is_connected`: pop from the front of the queue,
succeed on the end node, otherwise enqueue-and-visit the unvisited neighbors
reachable over the player's conduits.  The fuel argument only serves
termination; `Game.is_connected` passes enough fuel that it never runs out
(each iteration pops one queue element, and every enqueue marks a
previously-unvisited board cell as visited). -/
def bfsAux (hexKeys : List HexCoord) (pcs : List Edge) (end_node : HexCoord) :
    Nat → List HexCoord → Finset HexCoord → Bool
  | 0, _, _ => false
  | _ + 1, [], _ => false
  | fuel + 1, current_hex :: rest, visited =>
    if current_hex = end_node then true
    else
      let fresh := (neighborsIn hexKeys current_hex).filter
        (fun n => decide (mkEdge current_hex n ∈ pcs ∧ n ∉ visited))
      bfsAux hexKeys pcs end_node fuel (rest ++ fresh) (visited ∪ fresh.toFinset)

/-- `Game._is_connected`: BFS over the player's own conduits; an empty conduit
set short-circuits to `false`. -/
def Game.is_connected (g : Game) (player : Player)
    (start_node end_node : HexCoord) : Bool :=
  let pcs := playerConduits g.board.conduits player.id
  if pcs.isEmpty then false
  else
    bfsAux (boardKeys g.board) pcs end_node ((boardKeys g.board).length + 1)
      [start_node] {start_node}

/-- `Game._get_controlled_resources`: resource cells (truthy resource tag,
not the Nexus) connected to the player's base; a Python `set` of coordinates. -/
def Game.get_controlled_resources (g : Game) (player : Player) : Finset HexCoord :=
  let resource_hexes := g.board.hexes.filterMap (fun kv =>
    match kv.2.resource with
    | some res => if res ≠ "" ∧ res ≠ "NEXUS" then some kv.2.coordinates else none
    | none => none)
  (resource_hexes.filter
    (fun c => Game.is_connected g player player.base_hex c)).toFinset

/-- `Game._check_win_condition`. -/
def Game.check_win_condition (g : Game) (player : Player) : Bool :=
  let connected_to_nexus :=
    Game.is_connected g player player.base_hex ((0 : Int), (0 : Int))
  if !connected_to_nexus then false
  else if (Game.get_controlled_resources g player).card < WIN_CONDITION_RESOURCES then
    false
  else true

-- --- ActionPayload handlers ---

-- `self.message = msg; return False`
def failMsg (g : Game) (msg : String) : Option (Bool × Game) :=
  some (false, { g with message := msg })

/-- `Game._handle_place_conduit`.  The `action['hex1']`/`action['hex2']`
accesses raise (model: `none`) when the keys are missing. -/
def Game.handle_place_conduit (g : Game) (player : Player) (action : ActionPayload) :
    Option (Bool × Game) :=
  if player.action_points < COST_PLACE_CONDUIT then
    failMsg g "Not enough AP to place a conduit."
  else
    match action.hex1, action.hex2 with
    | some hex1_coord, some hex2_coord =>
      let edge := mkEdge hex1_coord hex2_coord
      if (lookupConduit g.board.conduits edge).isSome then
        failMsg g "A conduit already exists there."
      else if hex2_coord ∉ g.board.get_neighbors hex1_coord then
        failMsg g "Hexes are not adjacent."
      else
        -- Check if placement is adjacent to the player's network
        let is_adjacent_to_network :=
          if player.base_hex = edge.1 ∨ player.base_hex = edge.2 then true
          else g.board.conduits.any (fun kv =>
            decide (kv.2.player_id = player.id) &&
            (decide (hex1_coord = kv.1.1 ∨ hex1_coord = kv.1.2) ||
             decide (hex2_coord = kv.1.1 ∨ hex2_coord = kv.1.2)))
        if !is_adjacent_to_network then
          failMsg g "Must place conduits adjacent to your existing network."
        else
          some (true, { g with
            players := g.players.set g.current_player_idx
              { player with action_points := player.action_points - COST_PLACE_CONDUIT },
            board := { g.board with
              conduits := dictSet g.board.conduits edge ⟨player.id, false⟩ },
            message := player.name ++ " placed a conduit." })
    | _, _ => none

/-- `Game._handle_reinforce_conduit`. -/
def Game.handle_reinforce_conduit (g : Game) (player : Player) (action : ActionPayload) :
    Option (Bool × Game) :=
  if player.action_points < COST_REINFORCE_CONDUIT then
    failMsg g "Not enough AP to reinforce."
  else
    match action.hex1, action.hex2 with
    | some hex1_coord, some hex2_coord =>
      let edge := mkEdge hex1_coord hex2_coord
      match lookupConduit g.board.conduits edge with
      | none => failMsg g "You can only reinforce your own conduits."
      | some conduit =>
        if conduit.player_id ≠ player.id then
          failMsg g "You can only reinforce your own conduits."
        else if conduit.reinforced then
          failMsg g "Conduit is already reinforced."
        else
          some (true, { g with
            players := g.players.set g.current_player_idx
              { player with action_points := player.action_points - COST_REINFORCE_CONDUIT },
            board := { g.board with
              conduits := dictSet g.board.conduits edge { conduit with reinforced := true } },
            message := player.name ++ " reinforced a conduit." })
    | _, _ => none

/-- `Game._handle_sabotage_conduit`. -/
def Game.handle_sabotage_conduit (g : Game) (player : Player) (action : ActionPayload) :
    Option (Bool × Game) :=
  if player.action_points < COST_SABOTAGE_CONDUIT then
    failMsg g "Not enough AP to sabotage."
  else
    match action.hex1, action.hex2 with
    | some hex1_coord, some hex2_coord =>
      let edge := mkEdge hex1_coord hex2_coord
      match lookupConduit g.board.conduits edge with
      | none => failMsg g "Cannot sabotage your own or non-existent conduits."
      | some conduit =>
        if conduit.player_id = player.id then
          failMsg g "Cannot sabotage your own or non-existent conduits."
        else if conduit.reinforced then
          failMsg g "Cannot sabotage a reinforced conduit."
        else
          some (true, { g with
            players := g.players.set g.current_player_idx
              { player with action_points := player.action_points - COST_SABOTAGE_CONDUIT },
            board := { g.board with conduits := eraseConduit g.board.conduits edge },
            message := player.name ++ " sabotaged an opponent\u0027s conduit." })
    | _, _ => none

/-- `Game.handle_player_action`: turn/game-over gating, handler dispatch, and
the post-success win check. -/
def Game.handle_player_action (g : Game) (player_id : String) (action : ActionPayload) :
    Option (Bool × Game) :=
  match g.players[g.current_player_idx]? with
  | none => none
  | some player =>
    if player.id ≠ player_id ∨ g.game_over then
      failMsg g "Not your turn or game is over."
    else
      let handler? : Option (Game → Player → ActionPayload → Option (Bool × Game)) :=
        match action.type with
        | some "place_conduit" => some Game.handle_place_conduit
        | some "reinforce_conduit" => some Game.handle_reinforce_conduit
        | some "sabotage_conduit" => some Game.handle_sabotage_conduit
        | _ => none
      match handler? with
      | none => failMsg g "Invalid action type."
      | some handler =>
        match handler g player action with
        | none => none
        | some (success, g₁) =>
          if success then
            match g₁.players[g.current_player_idx]? with
            | none => none
            | some player₁ =>
              if Game.check_win_condition g₁ player₁ then
                some (true, { g₁ with
                  game_over := true,
                  winner := (some player₁),
                  message := "Game Over! " ++ player₁.name ++
                    " has connected to the Nexus and wins!" })
              else some (true, g₁)
          else some (false, g₁)

-- --- Turn management ---

/-- `Game.start_turn`: bump the turn counter and overwrite the current
player's action points with `BASE_AP + RESOURCE_BONUS_AP * |controlled|`. -/
def Game.start_turn (g : Game) : Option Game :=
  let g₁ := { g with turn_number := g.turn_number + 1 }
  match g₁.players[g₁.current_player_idx]? with
  | none => none
  | some player =>
    let controlled := Game.get_controlled_resources g₁ player
    let bonus_ap : Int := (controlled.card : Int) * RESOURCE_BONUS_AP
    let ap := BASE_AP_PER_TURN + bonus_ap
    some { g₁ with
      players := g₁.players.set g₁.current_player_idx
        { player with action_points := ap },
      message := player.name ++ "\u0027s turn. AP: " ++ toString ap }

/-- `Game.next_turn`: no-op when the game is over, else advance circularly
and start the next turn. -/
def Game.next_turn (g : Game) : Option Game :=
  if g.game_over then some g
  else
    Game.start_turn
      { g with current_player_idx := (g.current_player_idx + 1) % g.players.length }

/-- `Game.__init__`.  `shufflePlayers` stands for `random.shuffle(self.players)`
(turn-order randomization), `shuffleSpots` for the resource-spot shuffle. -/
def Game.mkInit (player_details : List PlayerDetail)
    (shufflePlayers : List Player → List Player)
    (shuffleSpots : List HexCoord → List HexCoord) : Option Game :=
  let players₀ := player_details.map (fun d =>
    { id := d.id, name := d.name, color := d.color,
      action_points := 0, base_hex := ((0 : Int), (0 : Int)) })
  let hexes₀ := generateGrid GRID_RADIUS
  let (hexes, players₁) := placeSpecialHexes hexes₀ players₀ shuffleSpots
  let board : Board := { radius := GRID_RADIUS, hexes := hexes, conduits := [] }
  let players₂ := shufflePlayers players₁
  Game.start_turn
    { players := players₂, board := board, turn_number := 0,
      current_player_idx := 0, game_over := false, winner := none,
      message := "Game has started!" }

/-- The states reachable from a freshly created game by any sequence of
`handle_player_action` and `next_turn` calls, for any outcome of the two
`random.shuffle` calls (arbitrary permutations). -/
inductive Reachable : Game → Prop where
  | start : ∀ (player_details : List PlayerDetail)
      (shufflePlayers : List Player → List Player)
      (shuffleSpots : List HexCoord → List HexCoord) (g : Game),
      (∀ l, (shufflePlayers l).Perm l) →
      (∀ l, (shuffleSpots l).Perm l) →
      Game.mkInit player_details shufflePlayers shuffleSpots = some g →
      Reachable g
  | action : ∀ (g : Game) (pid : String) (a : ActionPayload) (b : Bool) (g' : Game),
      Reachable g → Game.handle_player_action g pid a = some (b, g') →
      Reachable g'
  | advance : ∀ (g g' : Game), Reachable g → Game.next_turn g = some g' →
      Reachable g'

-- ===================================================================
-- Characterizing the BFS of `Game._is_connected`
-- ===================================================================

/-- One traversal step of the BFS: `v` is an on-grid neighbor of `u` and the
canonical edge between them is one of the player's conduit edges. -/
def connStep (hexKeys : List HexCoord) (pcs : List Edge) (u v : HexCoord) : Prop :=
  v ∈ neighborsIn hexKeys u ∧ mkEdge u v ∈ pcs

theorem hexDirections_nodup : hexDirections.Nodup := by decide

theorem neighborsIn_nodup (hexKeys : List HexCoord) (c : HexCoord) :
    (neighborsIn hexKeys c).Nodup := by
  apply List.Nodup.filter
  apply List.Nodup.map _ hexDirections_nodup
  intro a b h
  obtain ⟨h1, h2⟩ := Prod.mk.injEq .. ▸ h
  exact Prod.ext (by omega) (by omega)

theorem neighborsIn_subset (hexKeys : List HexCoord) (c : HexCoord) :
    ∀ n ∈ neighborsIn hexKeys c, n ∈ hexKeys := by
  intro n hn
  rw [neighborsIn, List.mem_filter] at hn
  exact of_decide_eq_true hn.2

/-- Soundness of the BFS loop: if it answers `true` and every queued node is
reachable from `s`, then the end node is reachable from `s`. -/
theorem bfsAux_sound (hexKeys : List HexCoord) (pcs : List Edge) (e s : HexCoord) :
    ∀ (fuel : Nat) (qu : List HexCoord) (visited : Finset HexCoord),
      (∀ v ∈ qu, Relation.ReflTransGen (connStep hexKeys pcs) s v) →
      bfsAux hexKeys pcs e fuel qu visited = true →
      Relation.ReflTransGen (connStep hexKeys pcs) s e := by
  intro fuel
  induction fuel with
  | zero => intro qu visited _ hb; simp [bfsAux] at hb
  | succ n ih =>
    intro qu visited hq hb
    match qu with
    | [] => simp [bfsAux] at hb
    | cur :: rest =>
      rw [bfsAux] at hb
      by_cases hcur : cur = e
      · exact hcur ▸ hq cur (List.mem_cons_self ..)
      · rw [if_neg hcur] at hb
        apply ih _ _ _ hb
        intro v hv
        rcases List.mem_append.mp hv with h | h
        · exact hq v (List.mem_cons_of_mem _ h)
        · rw [List.mem_filter] at h
          have h2 : mkEdge cur v ∈ pcs ∧ v ∉ visited := by simpa using h.2
          exact (hq cur (List.mem_cons_self ..)).tail ⟨h.1, h2.1⟩

/-- Completeness of the BFS loop: if it answers `false` with enough fuel
(one unit per queue entry plus one per unvisited board cell), there is a
step-closed set of cells containing everything visited but not the end node. -/
theorem bfsAux_false (hexKeys : List HexCoord) (pcs : List Edge) (e : HexCoord) :
    ∀ (fuel : Nat) (qu : List HexCoord) (visited : Finset HexCoord),
      (hexKeys.toFinset \ visited).card + qu.length ≤ fuel →
      (∀ v ∈ qu, v ∈ visited) →
      (e ∈ visited → e ∈ qu) →
      (∀ u ∈ visited, u ∉ qu → ∀ v, connStep hexKeys pcs u v → v ∈ visited) →
      bfsAux hexKeys pcs e fuel qu visited = false →
      ∃ W : Finset HexCoord, visited ⊆ W ∧ e ∉ W ∧
        ∀ u ∈ W, ∀ v, connStep hexKeys pcs u v → v ∈ W := by
  intro fuel
  induction fuel with
  | zero =>
    intro qu visited hfuel hqv hev hcl _
    have hq0 : qu = [] := by
      cases qu with
      | nil => rfl
      | cons a l => simp only [List.length_cons] at hfuel; omega
    subst hq0
    exact ⟨visited, Finset.Subset.refl _, fun h => by simpa using hev h,
      fun u hu v hst => hcl u hu (by simp) v hst⟩
  | succ n ih =>
    intro qu visited hfuel hqv hev hcl hb
    match qu with
    | [] =>
      exact ⟨visited, Finset.Subset.refl _, fun h => by simpa using hev h,
        fun u hu v hst => hcl u hu (by simp) v hst⟩
    | cur :: rest =>
      rw [bfsAux] at hb
      by_cases hcur : cur = e
      · rw [if_pos hcur] at hb; exact absurd hb (by simp)
      · rw [if_neg hcur] at hb
        set F := (neighborsIn hexKeys cur).filter
          (fun n => decide (mkEdge cur n ∈ pcs ∧ n ∉ visited)) with hF
        have hFmem : ∀ x ∈ F, x ∈ neighborsIn hexKeys cur ∧
            mkEdge cur x ∈ pcs ∧ x ∉ visited := by
          intro x hx
          rw [hF, List.mem_filter] at hx
          exact ⟨hx.1, by simpa using hx.2⟩
        have hFnodup : F.Nodup := (neighborsIn_nodup hexKeys cur).filter _
        have hFsub : F.toFinset ⊆ hexKeys.toFinset \ visited := by
          intro x hx
          rw [List.mem_toFinset] at hx
          obtain ⟨h1, _, h3⟩ := hFmem x hx
          rw [Finset.mem_sdiff, List.mem_toFinset]
          exact ⟨neighborsIn_subset hexKeys cur x h1, h3⟩
        have hFcard : F.toFinset.card = F.length := List.toFinset_card_of_nodup hFnodup
        -- the termination measure decreases by exactly one
        have hsd : hexKeys.toFinset \ (visited ∪ F.toFinset) =
            (hexKeys.toFinset \ visited) \ F.toFinset := by
          ext x; simp [Finset.mem_sdiff, Finset.mem_union]; tauto
        have hcsub : ((hexKeys.toFinset \ visited) \ F.toFinset).card =
            (hexKeys.toFinset \ visited).card - F.toFinset.card :=
          Finset.card_sdiff hFsub
        have hcle : F.toFinset.card ≤ (hexKeys.toFinset \ visited).card :=
          Finset.card_le_card hFsub
        have hfuel' : (hexKeys.toFinset \ (visited ∪ F.toFinset)).card +
            (rest ++ F).length ≤ n := by
          rw [hsd, hcsub, List.length_append]
          simp at hfuel
          omega
        have hqv' : ∀ v ∈ rest ++ F, v ∈ visited ∪ F.toFinset := by
          intro v hv
          rcases List.mem_append.mp hv with h | h
          · exact Finset.mem_union_left _ (hqv v (List.mem_cons_of_mem _ h))
          · exact Finset.mem_union_right _ (List.mem_toFinset.mpr h)
        have hev' : e ∈ visited ∪ F.toFinset → e ∈ rest ++ F := by
          intro h
          rcases Finset.mem_union.mp h with h | h
          · have := hev h
            rcases List.mem_cons.mp this with h' | h'
            · exact absurd h'.symm hcur
            · exact List.mem_append.mpr (.inl h')
          · exact List.mem_append.mpr (.inr (List.mem_toFinset.mp h))
        have hcl' : ∀ u ∈ visited ∪ F.toFinset, u ∉ rest ++ F →
            ∀ v, connStep hexKeys pcs u v → v ∈ visited ∪ F.toFinset := by
          intro u hu hunq v hst
          by_cases hu_cur : u = cur
          · subst hu_cur
            by_cases hv : v ∈ visited
            · exact Finset.mem_union_left _ hv
            · refine Finset.mem_union_right _ (List.mem_toFinset.mpr ?_)
              exact List.mem_filter.mpr ⟨hst.1, decide_eq_true ⟨hst.2, hv⟩⟩
          · rcases Finset.mem_union.mp hu with h | h
            · have hunq' : u ∉ cur :: rest := by
                intro hmem
                rcases List.mem_cons.mp hmem with h' | h'
                · exact hu_cur h'
                · exact hunq (List.mem_append.mpr (.inl h'))
              exact Finset.mem_union_left _ (hcl u h hunq' v hst)
            · exact absurd (List.mem_append.mpr (.inr (List.mem_toFinset.mp h))) hunq
        obtain ⟨W, hsub, heW, hclW⟩ := ih (rest ++ F) (visited ∪ F.toFinset)
          hfuel' hqv' hev' hcl' hb
        exact ⟨W, fun x hx => hsub (Finset.mem_union_left _ hx), heW, hclW⟩

/-- A step-closed set containing the start contains everything reachable. -/
theorem reach_mem_closed (hexKeys : List HexCoord) (pcs : List Edge)
    (s e : HexCoord) (W : Finset HexCoord)
    (h : Relation.ReflTransGen (connStep hexKeys pcs) s e)
    (hs : s ∈ W) (hcl : ∀ u ∈ W, ∀ v, connStep hexKeys pcs u v → v ∈ W) :
    e ∈ W := by
  induction h with
  | refl => exact hs
  | tail _ st ih => exact hcl _ ih _ st

/-- `Game._is_connected` answers `true` exactly when the player owns at least
one conduit and the end node is reachable from the start node along the
player's conduit edges (over cells existing on the board). -/
theorem is_connected_iff (g : Game) (player : Player) (s e : HexCoord) :
    Game.is_connected g player s e = true ↔
      playerConduits g.board.conduits player.id ≠ [] ∧
        Relation.ReflTransGen
          (connStep (boardKeys g.board) (playerConduits g.board.conduits player.id))
          s e := by
  unfold Game.is_connected
  by_cases hne : (playerConduits g.board.conduits player.id).isEmpty
  · simp only [hne, if_true]
    simp [List.isEmpty_iff.mp hne]
  · simp only [hne, if_false, Bool.false_eq_true]
    constructor
    · intro hb
      refine ⟨fun hnil => hne (by simp [hnil]), ?_⟩
      apply bfsAux_sound _ _ _ _ _ _ _ _ hb
      intro v hv
      rcases List.mem_cons.mp hv with h | h
      · exact h ▸ Relation.ReflTransGen.refl
      · simp at h
    · rintro ⟨-, hreach⟩
      by_contra hb
      rw [Bool.not_eq_true] at hb
      obtain ⟨W, hsub, heW, hcl⟩ := bfsAux_false (boardKeys g.board)
        (playerConduits g.board.conduits player.id) e
        ((boardKeys g.board).length + 1) [s] {s}
        (by
          have h1 : ((boardKeys g.board).toFinset \ {s}).card ≤
              (boardKeys g.board).toFinset.card :=
            Finset.card_le_card (Finset.sdiff_subset)
          have h2 := (boardKeys g.board).toFinset_card_le
          simp only [List.length_singleton]
          omega)
        (by intro v hv; rcases List.mem_cons.mp hv with h | h
            · simp [h]
            · simp at h)
        (by intro h; simp at h; simp [h])
        (by intro u hu hnq v hst
            rw [Finset.mem_singleton] at hu
            exact absurd (hu ▸ List.mem_cons_self s []) hnq)
        hb
      exact heW (reach_mem_closed _ _ s e W hreach
        (hsub (Finset.mem_singleton_self s)) hcl)

-- ===================================================================
-- The player's conduit edge set under dict update / delete
-- ===================================================================

theorem mem_playerConduits_iff (cs : List (Edge × Conduit)) (pid : String)
    (x : Edge) :
    x ∈ playerConduits cs pid ↔ ∃ c : Conduit, (x, c) ∈ cs ∧ c.player_id = pid := by
  unfold playerConduits
  simp only [List.mem_map, List.mem_filter]
  constructor
  · rintro ⟨⟨x', c⟩, ⟨hmem, hp⟩, rfl⟩
    exact ⟨c, hmem, by simpa using hp⟩
  · rintro ⟨c, hmem, hp⟩
    exact ⟨(x, c), ⟨hmem, by simpa using hp⟩, rfl⟩

theorem playerConduits_dictSet_mono (cs : List (Edge × Conduit)) (pid : String)
    (ed : Edge) (r : Bool) :
    ∀ x ∈ playerConduits cs pid, x ∈ playerConduits (dictSet cs ed ⟨pid, r⟩) pid := by
  intro x hx
  rw [mem_playerConduits_iff] at hx ⊢
  obtain ⟨c, hmem, hpid⟩ := hx
  unfold dictSet
  split
  · by_cases hxe : x = ed
    · subst hxe
      exact ⟨⟨pid, r⟩, List.mem_map.mpr ⟨(x, c), hmem, by simp⟩, rfl⟩
    · exact ⟨c, List.mem_map.mpr ⟨(x, c), hmem, by simp [hxe]⟩, hpid⟩
  · exact ⟨c, List.mem_append.mpr (.inl hmem), hpid⟩

theorem playerConduits_dictSet_self (cs : List (Edge × Conduit)) (pid : String)
    (ed : Edge) (r : Bool) :
    ed ∈ playerConduits (dictSet cs ed ⟨pid, r⟩) pid := by
  rw [mem_playerConduits_iff]
  unfold dictSet
  split
  · rename_i hany
    obtain ⟨⟨k, c⟩, hmem, hk⟩ := List.any_eq_true.mp hany
    have hk' : k = ed := by simpa using hk
    subst hk'
    exact ⟨⟨pid, r⟩, List.mem_map.mpr ⟨(k, c), hmem, by simp⟩, rfl⟩
  · exact ⟨⟨pid, r⟩, List.mem_append.mpr (.inr (by simp)), rfl⟩

theorem playerConduits_eraseConduit_sub (cs : List (Edge × Conduit)) (pid : String)
    (ed : Edge) :
    ∀ x ∈ playerConduits (eraseConduit cs ed) pid, x ∈ playerConduits cs pid := by
  intro x hx
  unfold playerConduits eraseConduit at *
  have hsub : List.Sublist (cs.eraseP (fun kv => decide (kv.1 = ed))) cs :=
    List.eraseP_sublist cs
  exact ((hsub.filter _).map _).mem hx

-- ===================================================================
-- Small literal game states used to instantiate theorems
-- ===================================================================

def alice : Player := ⟨"a", "Alice", "red", 4, ((0 : Int), (0 : Int))⟩

def twoHexes : List (HexCoord × Hex) :=
  [(((0 : Int), (0 : Int)), ⟨0, 0, some "NEXUS", none⟩),
   (((1 : Int), (0 : Int)), ⟨1, 0, none, none⟩)]

/-- A game whose board carries no conduits at all. -/
def gNoConduits : Game :=
  { players := [alice]
    board := { radius := GRID_RADIUS, hexes := twoHexes, conduits := [] }
    turn_number := 1
    current_player_idx := 0
    game_over := false
    winner := none
    message := "" }

/-- A game where Alice owns the single conduit (0,0)-(1,0). -/
def gOneConduit : Game :=
  { players := [alice]
    board := { radius := GRID_RADIUS
               hexes := twoHexes
               conduits := [((((0 : Int), (0 : Int)), ((1 : Int), (0 : Int))),
                             ⟨"a", false⟩)] }
    turn_number := 1
    current_player_idx := 0
    game_over := false
    winner := none
    message := "" }

-- ===================================================================
-- C1: reflexivity of isConnected
-- ===================================================================

/-- C1 (amended): `isConnected(P, X, X)` is true for any cell `X` whenever `P`
owns at least one conduit; when `P` owns zero conduits it returns false even
for `X = X` (the empty-conduit short-circuit fires before the BFS can match
the start against the end). -/
theorem c1_connectivity_reflexive :
    (∀ (g : Game) (player : Player) (x : HexCoord),
       playerConduits g.board.conduits player.id ≠ [] →
       Game.is_connected g player x x = true) ∧
    (∀ (g : Game) (player : Player) (x : HexCoord),
       playerConduits g.board.conduits player.id = [] →
       Game.is_connected g player x x = false) := by
  constructor
  · intro g player x hne
    unfold Game.is_connected
    rw [if_neg (by simpa [List.isEmpty_iff] using hne)]
    rw [bfsAux]
    simp
  · intro g player x h
    unfold Game.is_connected
    rw [if_pos (by simp [h])]

/-- C1 counterexample: for a player with zero conduits the claimed reflexivity
fails: `isConnected(P, X, X)` is false. -/
theorem c1_counterexample :
    Game.is_connected gNoConduits alice ((0 : Int), (0 : Int)) ((0 : Int), (0 : Int)) =
      false := by decide

theorem c1_witness :
    (playerConduits gOneConduit.board.conduits alice.id ≠ [] ∧
     Game.is_connected gOneConduit alice ((5 : Int), (5 : Int)) ((5 : Int), (5 : Int)) =
       true) ∧
    (playerConduits gNoConduits.board.conduits alice.id = [] ∧
     Game.is_connected gNoConduits alice ((1 : Int), (0 : Int)) ((1 : Int), (0 : Int)) =
       false) :=
  ⟨⟨by decide, c1_connectivity_reflexive.1 gOneConduit alice _ (by decide)⟩,
   ⟨rfl, c1_connectivity_reflexive.2 gNoConduits alice _ rfl⟩⟩

-- ===================================================================
-- C7: connectivity is monotone in the owner's conduit set
-- ===================================================================

/-- C7: adding a conduit owned by `P` preserves every `isConnected(P, ·, ·)`
answer of `true`; removing a conduit owned by `P` preserves every answer of
`false` (reachable sets only grow under insertion, only shrink under removal). -/
theorem c7_connectivity_monotone :
    (∀ (g : Game) (player : Player) (s e : HexCoord) (ed : Edge) (r : Bool),
       Game.is_connected g player s e = true →
       Game.is_connected
         { g with board := { g.board with
             conduits := dictSet g.board.conduits ed ⟨player.id, r⟩ } }
         player s e = true) ∧
    (∀ (g : Game) (player : Player) (s e : HexCoord) (ed : Edge) (c : Conduit),
       lookupConduit g.board.conduits ed = some c → c.player_id = player.id →
       Game.is_connected g player s e = false →
       Game.is_connected
         { g with board := { g.board with
             conduits := eraseConduit g.board.conduits ed } }
         player s e = false) := by
  constructor
  · intro g player s e ed r h
    rw [is_connected_iff] at h ⊢
    obtain ⟨hne, hreach⟩ := h
    constructor
    · show playerConduits (dictSet g.board.conduits ed ⟨player.id, r⟩) player.id ≠ []
      intro hnil
      have hmem := playerConduits_dictSet_self g.board.conduits player.id ed r
      rw [hnil] at hmem
      exact absurd hmem (List.not_mem_nil _)
    · show Relation.ReflTransGen (connStep (boardKeys g.board)
        (playerConduits (dictSet g.board.conduits ed ⟨player.id, r⟩) player.id)) s e
      refine Relation.ReflTransGen.mono ?_ hreach
      intro a b hst
      exact ⟨hst.1, playerConduits_dictSet_mono _ _ _ _ _ hst.2⟩
  · intro g player s e ed c _ _ h
    by_contra hb
    rw [Bool.not_eq_false] at hb
    rw [is_connected_iff] at hb
    obtain ⟨hne, hreach⟩ := hb
    have hne' : playerConduits g.board.conduits player.id ≠ [] := by
      intro hnil
      obtain ⟨x, hx⟩ := List.exists_mem_of_ne_nil _ hne
      have hx' := playerConduits_eraseConduit_sub g.board.conduits player.id ed x hx
      rw [hnil] at hx'
      exact absurd hx' (List.not_mem_nil _)
    have hreach' : Relation.ReflTransGen (connStep (boardKeys g.board)
        (playerConduits g.board.conduits player.id)) s e := by
      refine Relation.ReflTransGen.mono ?_ hreach
      intro a b hst
      exact ⟨hst.1, playerConduits_eraseConduit_sub _ _ _ _ hst.2⟩
    have htrue : Game.is_connected g player s e = true :=
      (is_connected_iff ..).mpr ⟨hne', hreach'⟩
    rw [h] at htrue
    exact Bool.false_ne_true htrue

theorem c7_witness :
    (Game.is_connected gOneConduit alice ((0 : Int), (0 : Int)) ((1 : Int), (0 : Int)) =
       true ∧
     Game.is_connected { gOneConduit with board := { gOneConduit.board with
         conduits := dictSet gOneConduit.board.conduits
           (((1 : Int), (0 : Int)), ((2 : Int), (0 : Int))) ⟨alice.id, false⟩ } }
       alice ((0 : Int), (0 : Int)) ((1 : Int), (0 : Int)) = true) ∧
    (lookupConduit gOneConduit.board.conduits
       (((0 : Int), (0 : Int)), ((1 : Int), (0 : Int))) = some ⟨"a", false⟩ ∧
     Game.is_connected gOneConduit alice ((0 : Int), (0 : Int)) ((5 : Int), (5 : Int)) =
       false ∧
     Game.is_connected { gOneConduit with board := { gOneConduit.board with
         conduits := eraseConduit gOneConduit.board.conduits
           (((0 : Int), (0 : Int)), ((1 : Int), (0 : Int))) } }
       alice ((0 : Int), (0 : Int)) ((5 : Int), (5 : Int)) = false) :=
  ⟨⟨by decide, c7_connectivity_monotone.1 gOneConduit alice _ _ _ _ (by decide)⟩,
   ⟨by decide, by decide,
    c7_connectivity_monotone.2 gOneConduit alice _ _ _ ⟨"a", false⟩ (by decide)
      (by decide) (by decide)⟩⟩

-- ===================================================================
-- Shapes of the action-handler results
-- ===================================================================

theorem place_false_shape (g : Game) (player : Player) (a : ActionPayload)
    (g₁ : Game) (h : Game.handle_place_conduit g player a = some (false, g₁)) :
    ∃ m, g₁ = { g with message := m } := by
  simp only [Game.handle_place_conduit, failMsg] at h
  repeat' split at h
  all_goals first
    | (simp only [Option.some.injEq, Prod.mk.injEq, eq_self_iff_true, true_and] at h
       exact ⟨_, h.symm⟩)
    | simp at h

theorem place_true_shape (g : Game) (player : Player) (a : ActionPayload)
    (g₁ : Game) (h : Game.handle_place_conduit g player a = some (true, g₁)) :
    COST_PLACE_CONDUIT ≤ player.action_points ∧
    ∃ (cs : List (Edge × Conduit)) (m : String), g₁ =
      { g with
        players := g.players.set g.current_player_idx
          { player with action_points := player.action_points - COST_PLACE_CONDUIT }
        board := { g.board with conduits := cs }
        message := m } := by
  simp only [Game.handle_place_conduit, failMsg] at h
  repeat' split at h
  all_goals first
    | (simp only [Option.some.injEq, Prod.mk.injEq, eq_self_iff_true, true_and] at h
       exact ⟨Int.not_lt.mp (by assumption), _, _, h.symm⟩)
    | simp at h

theorem reinforce_false_shape (g : Game) (player : Player) (a : ActionPayload)
    (g₁ : Game) (h : Game.handle_reinforce_conduit g player a = some (false, g₁)) :
    ∃ m, g₁ = { g with message := m } := by
  simp only [Game.handle_reinforce_conduit, failMsg] at h
  repeat' split at h
  all_goals first
    | (simp only [Option.some.injEq, Prod.mk.injEq, eq_self_iff_true, true_and] at h
       exact ⟨_, h.symm⟩)
    | simp at h

theorem reinforce_true_shape (g : Game) (player : Player) (a : ActionPayload)
    (g₁ : Game) (h : Game.handle_reinforce_conduit g player a = some (true, g₁)) :
    COST_REINFORCE_CONDUIT ≤ player.action_points ∧
    ∃ (cs : List (Edge × Conduit)) (m : String), g₁ =
      { g with
        players := g.players.set g.current_player_idx
          { player with action_points := player.action_points - COST_REINFORCE_CONDUIT }
        board := { g.board with conduits := cs }
        message := m } := by
  simp only [Game.handle_reinforce_conduit, failMsg] at h
  repeat' split at h
  all_goals first
    | (simp only [Option.some.injEq, Prod.mk.injEq, eq_self_iff_true, true_and] at h
       exact ⟨Int.not_lt.mp (by assumption), _, _, h.symm⟩)
    | simp at h

theorem sabotage_false_shape (g : Game) (player : Player) (a : ActionPayload)
    (g₁ : Game) (h : Game.handle_sabotage_conduit g player a = some (false, g₁)) :
    ∃ m, g₁ = { g with message := m } := by
  simp only [Game.handle_sabotage_conduit, failMsg] at h
  repeat' split at h
  all_goals first
    | (simp only [Option.some.injEq, Prod.mk.injEq, eq_self_iff_true, true_and] at h
       exact ⟨_, h.symm⟩)
    | simp at h

theorem sabotage_true_shape (g : Game) (player : Player) (a : ActionPayload)
    (g₁ : Game) (h : Game.handle_sabotage_conduit g player a = some (true, g₁)) :
    COST_SABOTAGE_CONDUIT ≤ player.action_points ∧
    ∃ (cs : List (Edge × Conduit)) (m : String), g₁ =
      { g with
        players := g.players.set g.current_player_idx
          { player with action_points := player.action_points - COST_SABOTAGE_CONDUIT }
        board := { g.board with conduits := cs }
        message := m } := by
  simp only [Game.handle_sabotage_conduit, failMsg] at h
  repeat' split at h
  all_goals first
    | (simp only [Option.some.injEq, Prod.mk.injEq, eq_self_iff_true, true_and] at h
       exact ⟨Int.not_lt.mp (by assumption), _, _, h.symm⟩)
    | simp at h


/-- Decomposition of `handle_player_action` results: any `some` result comes
with the fetched current player; a `false` result only rewrote the status
message, while a `true` result deducted the cost of the dispatched handler
from the current player's points (after the handler's pre-check), replaced
the conduit dict, set a message, and then either flagged the win or left
the rest of the state alone according to `check_win_condition`. -/
theorem handle_shape (g : Game) (pid : String) (a : ActionPayload) (b : Bool)
    (g' : Game) (h : Game.handle_player_action g pid a = some (b, g')) :
    ∃ player, g.players[g.current_player_idx]? = some player ∧
      ((b = false ∧ ∃ m, g' = { g with message := m }) ∨
       (b = true ∧ ∃ (cost : Int) (cs : List (Edge × Conduit)) (m : String)
          (g₁ : Game) (player₁ : Player),
          cost ≤ player.action_points ∧
          g₁ = { g with
            players := g.players.set g.current_player_idx
              { player with action_points := player.action_points - cost }
            board := { g.board with conduits := cs }
            message := m } ∧
          g₁.players[g.current_player_idx]? = some player₁ ∧
          ((Game.check_win_condition g₁ player₁ = true ∧
            ∃ m₂, g' = { g₁ with
              game_over := true
              winner := some player₁
              message := m₂ }) ∨
           (Game.check_win_condition g₁ player₁ = false ∧ g' = g₁)))) := by
  simp only [Game.handle_player_action, failMsg] at h
  split at h
  · simp at h
  · rename_i player hp
    refine ⟨player, hp, ?_⟩
    split at h
    · simp only [Option.some.injEq, Prod.mk.injEq] at h
      exact .inl ⟨h.1.symm, _, h.2.symm⟩
    · split at h
      · -- unrecognized action type: handler lookup returned none
        simp only [Option.some.injEq, Prod.mk.injEq] at h
        exact .inl ⟨h.1.symm, _, h.2.symm⟩
      · rename_i handler heq
        split at heq
        · -- place
          injection heq with heq'
          subst heq'
          split at h
          · simp at h
          · rename_i res success g₁ hres
            split at h
            · rename_i hsucc
              subst hsucc
              obtain ⟨hcost, cs, m, hg₁⟩ := place_true_shape g player a g₁ hres
              split at h
              · simp at h
              · rename_i player₁ hp₁
                split at h
                · rename_i hwin
                  simp only [Option.some.injEq, Prod.mk.injEq] at h
                  exact .inr ⟨h.1.symm, COST_PLACE_CONDUIT, cs, m, g₁, player₁,
                    hcost, hg₁, hp₁, .inl ⟨hwin, _, h.2.symm⟩⟩
                · rename_i hwin
                  simp only [Option.some.injEq, Prod.mk.injEq] at h
                  exact .inr ⟨h.1.symm, COST_PLACE_CONDUIT, cs, m, g₁, player₁,
                    hcost, hg₁, hp₁, .inr ⟨Bool.not_eq_true _ ▸ hwin, h.2.symm⟩⟩
            · rename_i hsucc
              have hsucc' : success = false := Bool.not_eq_true _ ▸ hsucc
              subst hsucc'
              obtain ⟨m, hg₁⟩ := place_false_shape g player a g₁ hres
              simp only [Option.some.injEq, Prod.mk.injEq] at h
              exact .inl ⟨h.1.symm, m, h.2.symm ▸ hg₁⟩
        · -- reinforce
          injection heq with heq'
          subst heq'
          split at h
          · simp at h
          · rename_i res success g₁ hres
            split at h
            · rename_i hsucc
              subst hsucc
              obtain ⟨hcost, cs, m, hg₁⟩ := reinforce_true_shape g player a g₁ hres
              split at h
              · simp at h
              · rename_i player₁ hp₁
                split at h
                · rename_i hwin
                  simp only [Option.some.injEq, Prod.mk.injEq] at h
                  exact .inr ⟨h.1.symm, COST_REINFORCE_CONDUIT, cs, m, g₁, player₁,
                    hcost, hg₁, hp₁, .inl ⟨hwin, _, h.2.symm⟩⟩
                · rename_i hwin
                  simp only [Option.some.injEq, Prod.mk.injEq] at h
                  exact .inr ⟨h.1.symm, COST_REINFORCE_CONDUIT, cs, m, g₁, player₁,
                    hcost, hg₁, hp₁, .inr ⟨Bool.not_eq_true _ ▸ hwin, h.2.symm⟩⟩
            · rename_i hsucc
              have hsucc' : success = false := Bool.not_eq_true _ ▸ hsucc
              subst hsucc'
              obtain ⟨m, hg₁⟩ := reinforce_false_shape g player a g₁ hres
              simp only [Option.some.injEq, Prod.mk.injEq] at h
              exact .inl ⟨h.1.symm, m, h.2.symm ▸ hg₁⟩
        · -- sabotage
          injection heq with heq'
          subst heq'
          split at h
          · simp at h
          · rename_i res success g₁ hres
            split at h
            · rename_i hsucc
              subst hsucc
              obtain ⟨hcost, cs, m, hg₁⟩ := sabotage_true_shape g player a g₁ hres
              split at h
              · simp at h
              · rename_i player₁ hp₁
                split at h
                · rename_i hwin
                  simp only [Option.some.injEq, Prod.mk.injEq] at h
                  exact .inr ⟨h.1.symm, COST_SABOTAGE_CONDUIT, cs, m, g₁, player₁,
                    hcost, hg₁, hp₁, .inl ⟨hwin, _, h.2.symm⟩⟩
                · rename_i hwin
                  simp only [Option.some.injEq, Prod.mk.injEq] at h
                  exact .inr ⟨h.1.symm, COST_SABOTAGE_CONDUIT, cs, m, g₁, player₁,
                    hcost, hg₁, hp₁, .inr ⟨Bool.not_eq_true _ ▸ hwin, h.2.symm⟩⟩
            · rename_i hsucc
              have hsucc' : success = false := Bool.not_eq_true _ ▸ hsucc
              subst hsucc'
              obtain ⟨m, hg₁⟩ := sabotage_false_shape g player a g₁ hres
              simp only [Option.some.injEq, Prod.mk.injEq] at h
              exact .inl ⟨h.1.symm, m, h.2.symm ▸ hg₁⟩
        · simp at heq

-- ===================================================================
-- C2: failed actions only touch the message
-- ===================================================================

/-- C2: every `handle_player_action` call that returns `false` — turn gating,
game over, unrecognized action kind, or a handler validation failure — leaves
players, board (conduits included), turn number, current player index,
game-over flag and winner unchanged; only the status message may differ. -/
theorem c2_failed_actions_only_touch_message :
    ∀ (g : Game) (pid : String) (a : ActionPayload) (g' : Game),
      Game.handle_player_action g pid a = some (false, g') →
      g'.players = g.players ∧ g'.board = g.board ∧
      g'.turn_number = g.turn_number ∧
      g'.current_player_idx = g.current_player_idx ∧
      g'.game_over = g.game_over ∧ g'.winner = g.winner := by
  intro g pid a g' h
  obtain ⟨player, hp, hcase⟩ := handle_shape g pid a false g' h
  rcases hcase with ⟨-, m, rfl⟩ | ⟨habs, -⟩
  · exact ⟨rfl, rfl, rfl, rfl, rfl, rfl⟩
  · cases habs

def wrongTurnPayload : ActionPayload :=
  ⟨some "place_conduit", some ((0 : Int), (0 : Int)), some ((1 : Int), (0 : Int))⟩

theorem c2_witness :
    ∃ g', Game.handle_player_action gOneConduit "z" wrongTurnPayload =
        some (false, g') ∧
      (g'.players = gOneConduit.players ∧ g'.board = gOneConduit.board ∧
       g'.turn_number = gOneConduit.turn_number ∧
       g'.current_player_idx = gOneConduit.current_player_idx ∧
       g'.game_over = gOneConduit.game_over ∧ g'.winner = gOneConduit.winner) :=
  ⟨{ gOneConduit with message := "Not your turn or game is over." }, rfl,
   c2_failed_actions_only_touch_message gOneConduit "z" wrongTurnPayload
     { gOneConduit with message := "Not your turn or game is over." } rfl⟩

-- ===================================================================
-- C6: reinforced conduits are immune to sabotage
-- ===================================================================

theorem sabotage_reinforced_fails (g : Game) (player : Player) (a : ActionPayload)
    (h1 h2 : HexCoord) (c : Conduit)
    (hh1 : a.hex1 = some h1) (hh2 : a.hex2 = some h2)
    (hlook : lookupConduit g.board.conduits (mkEdge h1 h2) = some c)
    (hreinf : c.reinforced = true) :
    ∃ g₁, Game.handle_sabotage_conduit g player a = some (false, g₁) ∧
      g₁.board = g.board := by
  simp only [Game.handle_sabotage_conduit, failMsg, hh1, hh2, hlook]
  split
  · exact ⟨_, rfl, rfl⟩
  · split
    · exact ⟨_, rfl, rfl⟩
    · exact ⟨_, rfl, rfl⟩

/-- C6: a sabotage action aimed at a reinforced conduit always returns `false`
and leaves the conduit map unchanged (so the target stays present, with its
owner and reinforced flag intact), for any actor. -/
theorem c6_reinforced_sabotage_immune :
    ∀ (g : Game) (pid : String) (a : ActionPayload) (player : Player)
      (h1 h2 : HexCoord) (c : Conduit),
      g.players[g.current_player_idx]? = some player →
      a.type = some "sabotage_conduit" →
      a.hex1 = some h1 → a.hex2 = some h2 →
      lookupConduit g.board.conduits (mkEdge h1 h2) = some c →
      c.reinforced = true →
      ∃ g', Game.handle_player_action g pid a = some (false, g') ∧
        g'.board.conduits = g.board.conduits := by
  intro g pid a player h1 h2 c hp htype hh1 hh2 hlook hreinf
  obtain ⟨g₁, hsab, hboard⟩ :=
    sabotage_reinforced_fails g player a h1 h2 c hh1 hh2 hlook hreinf
  obtain ⟨res, hres0⟩ : ∃ r, Game.handle_player_action g pid a = r := ⟨_, rfl⟩
  have hres := hres0
  simp only [Game.handle_player_action, failMsg, htype, hp, hsab] at hres
  split at hres
  · exact ⟨{ g with message := "Not your turn or game is over." },
      by rw [hres0, ← hres], rfl⟩
  · refine ⟨g₁, ?_, by rw [hboard]⟩
    rw [hres0, ← hres]
    simp

def bob : Player := ⟨"b", "Bob", "blue", 4, ((1 : Int), (0 : Int))⟩

/-- A game where Bob owns a reinforced conduit and Alice is to act. -/
def gReinforced : Game :=
  { players := [alice, bob]
    board := { radius := GRID_RADIUS
               hexes := twoHexes
               conduits := [((((0 : Int), (0 : Int)), ((1 : Int), (0 : Int))),
                             ⟨"b", true⟩)] }
    turn_number := 1
    current_player_idx := 0
    game_over := false
    winner := none
    message := "" }

def sabotagePayload : ActionPayload :=
  ⟨some "sabotage_conduit", some ((0 : Int), (0 : Int)), some ((1 : Int), (0 : Int))⟩

theorem c6_witness :
    ∃ g', Game.handle_player_action gReinforced "a" sabotagePayload =
        some (false, g') ∧
      g'.board.conduits = gReinforced.board.conduits :=
  c6_reinforced_sabotage_immune gReinforced "a" sabotagePayload alice
    ((0 : Int), (0 : Int)) ((1 : Int), (0 : Int)) ⟨"b", true⟩
    rfl rfl rfl rfl (by decide) rfl

-- ===================================================================
-- C4: the win check after a successful action
-- ===================================================================

theorem check_win_condition_eq_true (g : Game) (player : Player) :
    Game.check_win_condition g player = true ↔
      (Game.is_connected g player player.base_hex ((0 : Int), (0 : Int)) = true ∧
       WIN_CONDITION_RESOURCES ≤ (Game.get_controlled_resources g player).card) := by
  unfold Game.check_win_condition
  cases hconn : Game.is_connected g player player.base_hex ((0 : Int), (0 : Int)) <;>
    simp [hconn]

/-- C4: after a successful action by the current player, the game transitions
to game-over with that player recorded as winner exactly when the player's
base is connected to the Nexus (0,0) and at least `WIN_CONDITION_RESOURCES`
resource cells are controlled; otherwise the game-over flag stays false and
the winner is unchanged. -/
theorem c4_win_check_after_success :
    ∀ (g : Game) (pid : String) (a : ActionPayload) (g' : Game),
      g.game_over = false →
      Game.handle_player_action g pid a = some (true, g') →
      ∃ player₁, g'.players[g.current_player_idx]? = some player₁ ∧
        ((Game.is_connected g' player₁ player₁.base_hex ((0 : Int), (0 : Int)) = true ∧
          WIN_CONDITION_RESOURCES ≤ (Game.get_controlled_resources g' player₁).card) →
          g'.game_over = true ∧ g'.winner = some player₁) ∧
        (¬(Game.is_connected g' player₁ player₁.base_hex ((0 : Int), (0 : Int)) = true ∧
           WIN_CONDITION_RESOURCES ≤ (Game.get_controlled_resources g' player₁).card) →
          g'.game_over = false ∧ g'.winner = g.winner) := by
  intro g pid a g' hgo h
  obtain ⟨player, hp, hcase⟩ := handle_shape g pid a true g' h
  rcases hcase with ⟨habs, -⟩ | ⟨-, cost, cs, m, g₁, player₁, hcost, hg₁, hp₁, hwin⟩
  · cases habs
  · rcases hwin with ⟨hwt, m₂, rfl⟩ | ⟨hwf, rfl⟩
    · refine ⟨player₁, hp₁, fun _ => ⟨rfl, rfl⟩, fun hnot => absurd ?_ hnot⟩
      exact (check_win_condition_eq_true g₁ player₁).mp hwt
    · refine ⟨player₁, hp₁, fun hcond => ?_, fun _ => ?_⟩
      · exfalso
        have hT := (check_win_condition_eq_true g' player₁).mpr hcond
        rw [hwf] at hT
        cases hT
      · constructor
        · rw [hg₁]; exact hgo
        · rw [hg₁]

def alice4 : Player := ⟨"a", "Alice", "red", 4, ((4 : Int), (0 : Int))⟩

/-- A 5-cell line board: Nexus at (0,0), three IRON cells, Alice's base at
(4,0); Alice's conduits already cover (4,0)..(1,0). -/
def lineHexes : List (HexCoord × Hex) :=
  [(((0 : Int), (0 : Int)), ⟨0, 0, some "NEXUS", none⟩),
   (((1 : Int), (0 : Int)), ⟨1, 0, none, none⟩),
   (((2 : Int), (0 : Int)), ⟨2, 0, some "IRON", none⟩),
   (((3 : Int), (0 : Int)), ⟨3, 0, some "IRON", none⟩),
   (((4 : Int), (0 : Int)), ⟨4, 0, some "IRON", some "a"⟩)]

def gWin : Game :=
  { players := [alice4, bob]
    board := { radius := GRID_RADIUS
               hexes := lineHexes
               conduits := [((((3 : Int), (0 : Int)), ((4 : Int), (0 : Int))), ⟨"a", false⟩),
                            ((((2 : Int), (0 : Int)), ((3 : Int), (0 : Int))), ⟨"a", false⟩),
                            ((((1 : Int), (0 : Int)), ((2 : Int), (0 : Int))), ⟨"a", false⟩)] }
    turn_number := 1
    current_player_idx := 0
    game_over := false
    winner := none
    message := "" }

def winPayload : ActionPayload :=
  ⟨some "place_conduit", some ((1 : Int), (0 : Int)), some ((0 : Int), (0 : Int))⟩

theorem c4_witness :
    gWin.game_over = false ∧
    ∃ g', Game.handle_player_action gWin "a" winPayload = some (true, g') ∧
      ∃ player₁, g'.players[gWin.current_player_idx]? = some player₁ ∧
        ((Game.is_connected g' player₁ player₁.base_hex ((0 : Int), (0 : Int)) = true ∧
          WIN_CONDITION_RESOURCES ≤ (Game.get_controlled_resources g' player₁).card) →
          g'.game_over = true ∧ g'.winner = some player₁) ∧
        (¬(Game.is_connected g' player₁ player₁.base_hex ((0 : Int), (0 : Int)) = true ∧
           WIN_CONDITION_RESOURCES ≤ (Game.get_controlled_resources g' player₁).card) →
          g'.game_over = false ∧ g'.winner = gWin.winner) :=
  ⟨rfl, _, rfl, c4_win_check_after_success gWin "a" winPayload _ rfl rfl⟩

-- ===================================================================
-- C5: action points at turn start
-- ===================================================================

theorem get_controlled_turn_bump (g : Game) (n : Nat) (p : Player) :
    Game.get_controlled_resources { g with turn_number := n } p =
      Game.get_controlled_resources g p := rfl

theorem get_controlled_idx_change (g : Game) (i : Nat) (p : Player) :
    Game.get_controlled_resources { g with current_player_idx := i } p =
      Game.get_controlled_resources g p := rfl

/-- `start_turn` overwrites the current player's action points with
`BASE_AP + |controlled| * RESOURCE_BONUS_AP`, keeping every other field. -/
theorem start_turn_sets_ap (g g' : Game) (p : Player)
    (hst : Game.start_turn g = some g')
    (hp : g.players[g.current_player_idx]? = some p) :
    g'.players[g.current_player_idx]? =
      some { p with action_points :=
        BASE_AP_PER_TURN +
          ((Game.get_controlled_resources g p).card : Int) * RESOURCE_BONUS_AP } := by
  have hlt : g.current_player_idx < g.players.length :=
    (List.getElem?_eq_some.mp hp).1
  simp only [Game.start_turn] at hst
  split at hst
  · cases hst
  · rename_i p' hp'
    rw [hp] at hp'
    injection hp' with hp'
    subst hp'
    injection hst with hst
    subst hst
    show (g.players.set g.current_player_idx _)[g.current_player_idx]? = _
    rw [List.getElem?_set_self', List.getElem?_eq_getElem hlt]
    rfl

/-- C5: at every turn start — the first turn included, and after every
`next_turn` — the current player's action points are overwritten with exactly
`BASE_AP_PER_TURN + RESOURCE_BONUS_AP * |controlled resources|`, regardless
of how many points were left unspent. -/
theorem c5_turn_start_overwrites_ap :
    (∀ (g g' : Game) (p : Player),
       Game.start_turn g = some g' →
       g.players[g.current_player_idx]? = some p →
       g'.players[g.current_player_idx]? =
         some { p with action_points :=
           BASE_AP_PER_TURN +
             ((Game.get_controlled_resources g p).card : Int) * RESOURCE_BONUS_AP }) ∧
    (∀ (g g' : Game) (p : Player),
       g.game_over = false →
       Game.next_turn g = some g' →
       g.players[(g.current_player_idx + 1) % g.players.length]? = some p →
       g'.players[(g.current_player_idx + 1) % g.players.length]? =
         some { p with action_points :=
           BASE_AP_PER_TURN +
             ((Game.get_controlled_resources g p).card : Int) * RESOURCE_BONUS_AP }) := by
  constructor
  · exact start_turn_sets_ap
  · intro g g' p hgo hnt hp
    simp only [Game.next_turn] at hnt
    rw [if_neg (by simp [hgo])] at hnt
    have h2 := start_turn_sets_ap
      { g with current_player_idx := (g.current_player_idx + 1) % g.players.length }
      g' p hnt hp
    rw [get_controlled_idx_change] at h2
    exact h2

theorem c5_witness :
    (∃ g', Game.start_turn gWin = some g' ∧
       g'.players[gWin.current_player_idx]? =
         some { alice4 with action_points :=
           BASE_AP_PER_TURN +
             ((Game.get_controlled_resources gWin alice4).card : Int) *
               RESOURCE_BONUS_AP }) ∧
    (gWin.game_over = false ∧
     ∃ g'', Game.next_turn gWin = some g'' ∧
       g''.players[(gWin.current_player_idx + 1) % gWin.players.length]? =
         some { bob with action_points :=
           BASE_AP_PER_TURN +
             ((Game.get_controlled_resources gWin bob).card : Int) *
               RESOURCE_BONUS_AP }) :=
  ⟨⟨_, rfl, c5_turn_start_overwrites_ap.1 gWin _ alice4 rfl rfl⟩,
   rfl, ⟨_, rfl, c5_turn_start_overwrites_ap.2 gWin _ bob rfl rfl rfl⟩⟩

-- ===================================================================
-- C9: totality of the core on well-formed payloads; KeyError otherwise
-- ===================================================================

theorem place_total (g : Game) (player : Player) (a : ActionPayload)
    (hh1 : a.hex1.isSome) (hh2 : a.hex2.isSome) :
    (Game.handle_place_conduit g player a).isSome := by
  obtain ⟨h1, hh1'⟩ := Option.isSome_iff_exists.mp hh1
  obtain ⟨h2v, hh2'⟩ := Option.isSome_iff_exists.mp hh2
  simp only [Game.handle_place_conduit, failMsg, hh1', hh2']
  repeat' split
  all_goals simp

theorem reinforce_total (g : Game) (player : Player) (a : ActionPayload)
    (hh1 : a.hex1.isSome) (hh2 : a.hex2.isSome) :
    (Game.handle_reinforce_conduit g player a).isSome := by
  obtain ⟨h1, hh1'⟩ := Option.isSome_iff_exists.mp hh1
  obtain ⟨h2v, hh2'⟩ := Option.isSome_iff_exists.mp hh2
  simp only [Game.handle_reinforce_conduit, failMsg, hh1', hh2']
  repeat' split
  all_goals simp

theorem sabotage_total (g : Game) (player : Player) (a : ActionPayload)
    (hh1 : a.hex1.isSome) (hh2 : a.hex2.isSome) :
    (Game.handle_sabotage_conduit g player a).isSome := by
  obtain ⟨h1, hh1'⟩ := Option.isSome_iff_exists.mp hh1
  obtain ⟨h2v, hh2'⟩ := Option.isSome_iff_exists.mp hh2
  simp only [Game.handle_sabotage_conduit, failMsg, hh1', hh2']
  repeat' split
  all_goals simp

theorem place_players_length (g : Game) (player : Player) (a : ActionPayload)
    (b : Bool) (g₁ : Game) (h : Game.handle_place_conduit g player a = some (b, g₁)) :
    g₁.players.length = g.players.length := by
  cases b
  · obtain ⟨m, rfl⟩ := place_false_shape g player a g₁ h; rfl
  · obtain ⟨-, cs, m, rfl⟩ := place_true_shape g player a g₁ h
    simp [List.length_set]

theorem reinforce_players_length (g : Game) (player : Player) (a : ActionPayload)
    (b : Bool) (g₁ : Game)
    (h : Game.handle_reinforce_conduit g player a = some (b, g₁)) :
    g₁.players.length = g.players.length := by
  cases b
  · obtain ⟨m, rfl⟩ := reinforce_false_shape g player a g₁ h; rfl
  · obtain ⟨-, cs, m, rfl⟩ := reinforce_true_shape g player a g₁ h
    simp [List.length_set]

theorem sabotage_players_length (g : Game) (player : Player) (a : ActionPayload)
    (b : Bool) (g₁ : Game)
    (h : Game.handle_sabotage_conduit g player a = some (b, g₁)) :
    g₁.players.length = g.players.length := by
  cases b
  · obtain ⟨m, rfl⟩ := sabotage_false_shape g player a g₁ h; rfl
  · obtain ⟨-, cs, m, rfl⟩ := sabotage_true_shape g player a g₁ h
    simp [List.length_set]

/-- C9 (amended): `handle_player_action` completes normally with a boolean
result for every actor identity and payload whose `hex1`/`hex2` entries are
present well-formed coordinate pairs (given a valid current-player index); a
recognized action kind with a missing coordinate entry instead raises
(`KeyError`, modelled as `none`). -/
theorem c9_no_unhandled_exception_wellformed :
    ∀ (g : Game) (pid : String) (a : ActionPayload),
      (g.players[g.current_player_idx]?).isSome →
      a.hex1.isSome → a.hex2.isSome →
      (Game.handle_player_action g pid a).isSome := by
  intro g pid a hp hh1 hh2
  obtain ⟨player, hp'⟩ := Option.isSome_iff_exists.mp hp
  have hlt : g.current_player_idx < g.players.length := (List.getElem?_eq_some.mp hp').1
  simp only [Game.handle_player_action, failMsg, hp']
  split
  · simp
  · split
    · simp
    · rename_i handler heq
      split at heq
      · injection heq with heq'
        subst heq'
        obtain ⟨r, hr⟩ := Option.isSome_iff_exists.mp (place_total g player a hh1 hh2)
        obtain ⟨success, g₁⟩ := r
        simp only [hr]
        cases success with
        | false => simp
        | true =>
          rw [if_pos rfl]
          have hlen : g₁.players.length = g.players.length :=
            place_players_length g player a true g₁ hr
          have hsome : (g₁.players[g.current_player_idx]?).isSome := by
            rw [List.getElem?_eq_getElem (by omega)]; rfl
          obtain ⟨p₁, hp₁⟩ := Option.isSome_iff_exists.mp hsome
          simp only [hp₁]
          split <;> simp
      · injection heq with heq'
        subst heq'
        obtain ⟨r, hr⟩ := Option.isSome_iff_exists.mp (reinforce_total g player a hh1 hh2)
        obtain ⟨success, g₁⟩ := r
        simp only [hr]
        cases success with
        | false => simp
        | true =>
          rw [if_pos rfl]
          have hlen : g₁.players.length = g.players.length :=
            reinforce_players_length g player a true g₁ hr
          have hsome : (g₁.players[g.current_player_idx]?).isSome := by
            rw [List.getElem?_eq_getElem (by omega)]; rfl
          obtain ⟨p₁, hp₁⟩ := Option.isSome_iff_exists.mp hsome
          simp only [hp₁]
          split <;> simp
      · injection heq with heq'
        subst heq'
        obtain ⟨r, hr⟩ := Option.isSome_iff_exists.mp (sabotage_total g player a hh1 hh2)
        obtain ⟨success, g₁⟩ := r
        simp only [hr]
        cases success with
        | false => simp
        | true =>
          rw [if_pos rfl]
          have hlen : g₁.players.length = g.players.length :=
            sabotage_players_length g player a true g₁ hr
          have hsome : (g₁.players[g.current_player_idx]?).isSome := by
            rw [List.getElem?_eq_getElem (by omega)]; rfl
          obtain ⟨p₁, hp₁⟩ := Option.isSome_iff_exists.mp hsome
          simp only [hp₁]
          split <;> simp
      · simp at heq

/-- C9 counterexample: a recognized action kind with a missing `hex1` entry
makes the core raise (modelled: `none`), refuting "no unhandled exception for
every payload". -/
theorem c9_counterexample :
    Game.handle_player_action gOneConduit "a"
      ⟨some "place_conduit", none, some ((0 : Int), (0 : Int))⟩ = none := by rfl

theorem c9_witness :
    (Game.handle_player_action gOneConduit "a"
      ⟨some "place_conduit", some ((0 : Int), (0 : Int)),
       some ((1 : Int), (0 : Int))⟩).isSome :=
  c9_no_unhandled_exception_wellformed gOneConduit "a" _ rfl rfl rfl

-- ===================================================================
-- C10: action points never go negative
-- ===================================================================

theorem markBasesAux_ap_zero (E : List HexCoord) (s : Nat) :
    ∀ (ps : List Player) (i : Nat) (hx : List (HexCoord × Hex)),
      (∀ p ∈ ps, p.action_points = 0) →
      ∀ p' ∈ (markBasesAux E s i ps hx).2, p'.action_points = 0 := by
  intro ps
  induction ps with
  | nil => intro i hx _ p' h; simp [markBasesAux] at h
  | cons q qs ih =>
    intro i hx hps p' hp'
    have hcons : (markBasesAux E s i (q :: qs) hx).2 =
        { q with base_hex := E.getD (i * s) ((0 : Int), (0 : Int)) } ::
        (markBasesAux E s (i + 1) qs
          (setBaseFor hx (E.getD (i * s) ((0 : Int), (0 : Int))) (some q.id))).2 := rfl
    rw [hcons] at hp'
    rcases List.mem_cons.mp hp' with h | h
    · rw [h]
      simpa using hps q (List.mem_cons_self ..)
    · exact ih (i + 1) _ (fun p hp => hps p (List.mem_cons_of_mem _ hp)) p' h

theorem placeSpecialHexes_ap_zero (hx : List (HexCoord × Hex)) (ps : List Player)
    (shuffleSpots : List HexCoord → List HexCoord)
    (hps : ∀ p ∈ ps, p.action_points = 0) :
    ∀ p' ∈ (placeSpecialHexes hx ps shuffleSpots).2, p'.action_points = 0 := by
  intro p' hp'
  exact markBasesAux_ap_zero _ _ ps 0 _ hps p' hp'

theorem start_turn_ap_nonneg (g g' : Game) (hst : Game.start_turn g = some g')
    (hinv : ∀ p ∈ g.players, 0 ≤ p.action_points) :
    ∀ p ∈ g'.players, 0 ≤ p.action_points := by
  simp only [Game.start_turn] at hst
  split at hst
  · cases hst
  · rename_i p hp
    injection hst with hst
    subst hst
    intro q hq
    have hq' : q ∈ g.players.set g.current_player_idx
        { p with action_points :=
          BASE_AP_PER_TURN +
            ((Game.get_controlled_resources g p).card : Int) * RESOURCE_BONUS_AP } := hq
    rcases List.mem_or_eq_of_mem_set hq' with h | h
    · exact hinv q h
    · rw [h]
      have hc : (0 : Int) ≤ ((Game.get_controlled_resources g p).card : Int) :=
        Int.natCast_nonneg _
      show (0 : Int) ≤ BASE_AP_PER_TURN +
        ((Game.get_controlled_resources g p).card : Int) * RESOURCE_BONUS_AP
      rw [BASE_AP_PER_TURN, RESOURCE_BONUS_AP]
      omega

theorem handle_ap_nonneg (g g' : Game) (pid : String) (a : ActionPayload) (b : Bool)
    (h : Game.handle_player_action g pid a = some (b, g'))
    (hinv : ∀ p ∈ g.players, 0 ≤ p.action_points) :
    ∀ p ∈ g'.players, 0 ≤ p.action_points := by
  obtain ⟨player, hp, hcase⟩ := handle_shape g pid a b g' h
  have hmem : player ∈ g.players := List.getElem?_mem hp
  rcases hcase with ⟨-, m, rfl⟩ | ⟨-, cost, cs, m, g₁, player₁, hcost, hg₁, hp₁, hwin⟩
  · exact hinv
  · have hinv₁ : ∀ p ∈ g₁.players, 0 ≤ p.action_points := by
      rw [hg₁]
      intro q hq
      have hq' : q ∈ g.players.set g.current_player_idx
          { player with action_points := player.action_points - cost } := hq
      rcases List.mem_or_eq_of_mem_set hq' with hmem' | hq''
      · exact hinv q hmem'
      · rw [hq'']
        have := hinv player hmem
        show (0 : Int) ≤ player.action_points - cost
        omega
    rcases hwin with ⟨-, m₂, rfl⟩ | ⟨-, rfl⟩
    · exact hinv₁
    · exact hinv₁

def details2 : List PlayerDetail :=
  [⟨"p1", "Alpha", "#f00"⟩, ⟨"p2", "Beta", "#0f0"⟩]

/-- C10: in every reachable state, every player's action points are ≥ 0
(actions deduct only after the cost pre-check), and every `start_turn` gives
the current player at least `BASE_AP_PER_TURN` points. -/
theorem c10_ap_never_negative :
    (∀ g : Game, Reachable g → ∀ p ∈ g.players, 0 ≤ p.action_points) ∧
    (∀ (g g' : Game) (p : Player), Game.start_turn g = some g' →
       g'.players[g.current_player_idx]? = some p →
       BASE_AP_PER_TURN ≤ p.action_points) := by
  constructor
  · intro g hreach
    induction hreach with
    | start details sp ss g hsp hss hg =>
      refine start_turn_ap_nonneg _ g hg ?_
      intro p hp
      have hp' : p ∈ (placeSpecialHexes (generateGrid GRID_RADIUS)
          (details.map (fun d =>
            { id := d.id, name := d.name, color := d.color,
              action_points := 0, base_hex := ((0 : Int), (0 : Int)) })) ss).2 :=
        ((hsp _).mem_iff).mp hp
      have h0 := placeSpecialHexes_ap_zero (generateGrid GRID_RADIUS) _ ss ?_ p hp'
      · rw [h0]
      · intro p0 hp0
        simp only [List.mem_map] at hp0
        obtain ⟨d, -, rfl⟩ := hp0
        rfl
    | action g pid a b g' hr h ih => exact handle_ap_nonneg g g' pid a b h ih
    | advance g g' hr hnt ih =>
      simp only [Game.next_turn] at hnt
      split at hnt
      · injection hnt with hnt
        subst hnt
        exact ih
      · exact start_turn_ap_nonneg _ g' hnt ih
  · intro g g' p hst hp
    obtain ⟨q, hq⟩ : ∃ q, g.players[g.current_player_idx]? = some q := by
      have hst' := hst
      simp only [Game.start_turn] at hst'
      split at hst'
      · cases hst'
      · rename_i q hq; exact ⟨q, hq⟩
    have hset := start_turn_sets_ap g g' q hst hq
    rw [hset] at hp
    injection hp with hp
    rw [← hp]
    have hc : (0 : Int) ≤ ((Game.get_controlled_resources g q).card : Int) :=
      Int.natCast_nonneg _
    show BASE_AP_PER_TURN ≤ BASE_AP_PER_TURN +
      ((Game.get_controlled_resources g q).card : Int) * RESOURCE_BONUS_AP
    rw [RESOURCE_BONUS_AP]
    omega

theorem c10_witness :
    (∃ g, Game.mkInit details2 id id = some g ∧
       ∀ p ∈ g.players, 0 ≤ p.action_points) ∧
    (∃ g', Game.start_turn gWin = some g' ∧
       ∃ p, g'.players[gWin.current_player_idx]? = some p ∧
         BASE_AP_PER_TURN ≤ p.action_points) :=
  ⟨⟨_, rfl, c10_ap_never_negative.1 _
      (Reachable.start details2 id id _ (fun l => List.Perm.refl l)
        (fun l => List.Perm.refl l) rfl)⟩,
   ⟨_, rfl, _, rfl, c10_ap_never_negative.2 gWin _ _ rfl rfl⟩⟩

-- ===================================================================
-- C3: conduit endpoints can reference a nonexistent cell (code bug)
-- ===================================================================

def placeOffGridPayload : ActionPayload :=
  ⟨some "place_conduit", some ((-5 : Int), (0 : Int)), some ((-4 : Int), (0 : Int))⟩

/-- C3 (code bug): from a freshly created 2-player game (identity shuffle
outcomes), the current player — whose base is the edge cell (-4,0) — places a
conduit with `hex1 = (-5,0)`, a cell that does not exist on the generated
grid.  `_handle_place_conduit` only checks that `hex2` is a grid neighbor of
`hex1` and never that `hex1` itself exists, so the call succeeds and the
conduit map ends up holding an edge with a nonexistent endpoint. -/
theorem c3_offgrid_conduit_bug :
    ((Game.mkInit details2 id id).bind
        (fun g0 => Game.handle_player_action g0 "p1" placeOffGridPayload)).map
      (fun r => (r.1,
        (lookupConduit r.2.board.conduits
          (((-5 : Int), (0 : Int)), ((-4 : Int), (0 : Int)))).isSome,
        decide (((-5 : Int), (0 : Int)) ∈ boardKeys r.2.board))) =
      some (true, true, false) := by decide

-- ===================================================================
-- C8: base placement
-- ===================================================================

-- The edge cells of the generated radius-4 grid, in dict iteration order
-- (the `edge_hexes` list of `_place_special_hexes`).
def edgeCoordsR4 : List HexCoord :=
  ((generateGrid GRID_RADIUS).filter (fun kv => hexRing kv.2 = GRID_RADIUS)).map
    (fun kv => kv.2.coordinates)

-- The maximum axial distance of a cell from the center.
def maxAxialDist (c : HexCoord) : Nat :=
  max c.1.natAbs (max c.2.natAbs (-c.1 - c.2).natAbs)

theorem edgeCoordsR4_eq :
    edgeCoordsR4 =
      [(-4, 0), (-4, 1), (-4, 2), (-4, 3), (-4, 4), (-3, -1), (-3, 4), (-2, -2),
       (-2, 4), (-1, -3), (-1, 4), (0, -4), (0, 4), (1, -4), (1, 3), (2, -4),
       (2, 2), (3, -4), (3, 1), (4, -4), (4, -3), (4, -2), (4, -1), (4, 0)] := by
  decide

theorem edgeCoordsR4_dist : ∀ c ∈ edgeCoordsR4, maxAxialDist c = GRID_RADIUS := by
  decide

/-- For up to 24 players, the stride-indexed base picks are pairwise distinct
edge cells. -/
theorem edge_bases_bounded_check :
    ∀ n < 25,
      (((List.range n).map (fun k =>
          edgeCoordsR4.getD (k * (edgeCoordsR4.length / n))
            ((0 : Int), (0 : Int)))).Nodup ∧
       ∀ k < n, edgeCoordsR4.getD (k * (edgeCoordsR4.length / n))
         ((0 : Int), (0 : Int)) ∈ edgeCoordsR4) := by
  simp only [edgeCoordsR4_eq]
  decide

theorem markBasesAux_base_map (E : List HexCoord) (s : Nat) :
    ∀ (ps : List Player) (i : Nat) (hx : List (HexCoord × Hex)),
      ((markBasesAux E s i ps hx).2).map (·.base_hex) =
        (List.range' i ps.length).map
          (fun k => E.getD (k * s) ((0 : Int), (0 : Int))) := by
  intro ps
  induction ps with
  | nil => intro i hx; rfl
  | cons q qs ih =>
    intro i hx
    have hcons : (markBasesAux E s i (q :: qs) hx).2 =
        { q with base_hex := E.getD (i * s) ((0 : Int), (0 : Int)) } ::
        (markBasesAux E s (i + 1) qs
          (setBaseFor hx (E.getD (i * s) ((0 : Int), (0 : Int))) (some q.id))).2 := rfl
    rw [hcons]
    simp only [List.length_cons, List.range'_succ, List.map_cons]
    rw [ih]

/-- C8 (amended): whenever the player count is between 1 and the edge-cell
count (24 at radius 4), board setup gives each player exactly one base, at
index stride `floor(edgeCellCount / playerCount)` around the edge-cell list;
every base is an edge cell (maximum axial distance = radius) and all assigned
bases are pairwise distinct.  (With more than 24 players the stride is 0 and
every player gets the same base cell.) -/
theorem c8_base_assignment (players : List Player)
    (shuffleSpots : List HexCoord → List HexCoord)
    (h1 : 1 ≤ players.length) (h24 : players.length ≤ 24) :
    ((placeSpecialHexes (generateGrid GRID_RADIUS) players shuffleSpots).2).length =
      players.length ∧
    (((placeSpecialHexes (generateGrid GRID_RADIUS) players shuffleSpots).2).map
        (·.base_hex)) =
      (List.range players.length).map (fun k =>
        edgeCoordsR4.getD (k * (edgeCoordsR4.length / players.length))
          ((0 : Int), (0 : Int))) ∧
    (∀ p' ∈ (placeSpecialHexes (generateGrid GRID_RADIUS) players shuffleSpots).2,
       p'.base_hex ∈ edgeCoordsR4 ∧ maxAxialDist p'.base_hex = GRID_RADIUS) ∧
    (((placeSpecialHexes (generateGrid GRID_RADIUS) players shuffleSpots).2).map
        (·.base_hex)).Nodup := by
  have hmap : (((placeSpecialHexes (generateGrid GRID_RADIUS) players
        shuffleSpots).2).map (·.base_hex)) =
      (List.range players.length).map (fun k =>
        edgeCoordsR4.getD (k * (edgeCoordsR4.length / players.length))
          ((0 : Int), (0 : Int))) := by
    rw [List.range_eq_range']
    exact markBasesAux_base_map edgeCoordsR4
      (edgeCoordsR4.length / players.length) players 0 _
  have hlen : ((placeSpecialHexes (generateGrid GRID_RADIUS) players
      shuffleSpots).2).length = players.length := by
    have hc := congrArg List.length hmap
    simpa using hc
  obtain ⟨hnodup, hmem⟩ := edge_bases_bounded_check players.length (by omega)
  refine ⟨hlen, hmap, ?_, ?_⟩
  · intro p' hp'
    have hin : p'.base_hex ∈
        (((placeSpecialHexes (generateGrid GRID_RADIUS) players
          shuffleSpots).2).map (·.base_hex)) :=
      List.mem_map.mpr ⟨p', hp', rfl⟩
    rw [hmap] at hin
    obtain ⟨k, hk, hbase⟩ := List.mem_map.mp hin
    have hkn := List.mem_range.mp hk
    rw [← hbase]
    exact ⟨hmem k hkn, edgeCoordsR4_dist _ (hmem k hkn)⟩
  · rw [hmap]; exact hnodup

def players25 : List Player :=
  (List.range 25).map (fun k => ⟨toString k, "P", "c", 0, ((0 : Int), (0 : Int))⟩)

/-- C8 counterexample: with 25 players (more than the 24 edge cells) the index
stride is `24 / 25 = 0`, so every player is assigned the same edge cell
(-4, 0) as base — the assigned base cells are not pairwise distinct. -/
theorem c8_counterexample :
    ¬ ((((placeSpecialHexes (generateGrid GRID_RADIUS) players25 id).2).map
        (·.base_hex)).Nodup) := by decide

theorem c8_witness :
    (1 : Nat) ≤ ([alice, bob] : List Player).length ∧
    ([alice, bob] : List Player).length ≤ 24 ∧
    (((placeSpecialHexes (generateGrid GRID_RADIUS) [alice, bob] id).2).length =
        ([alice, bob] : List Player).length ∧
     (((placeSpecialHexes (generateGrid GRID_RADIUS) [alice, bob] id).2).map
         (·.base_hex)) =
       (List.range ([alice, bob] : List Player).length).map (fun k =>
         edgeCoordsR4.getD (k * (edgeCoordsR4.length /
           ([alice, bob] : List Player).length)) ((0 : Int), (0 : Int))) ∧
     (∀ p' ∈ (placeSpecialHexes (generateGrid GRID_RADIUS) [alice, bob] id).2,
        p'.base_hex ∈ edgeCoordsR4 ∧ maxAxialDist p'.base_hex = GRID_RADIUS) ∧
     (((placeSpecialHexes (generateGrid GRID_RADIUS) [alice, bob] id).2).map
         (·.base_hex)).Nodup) :=
  ⟨by decide, by decide, c8_base_assignment [alice, bob] id (by decide) (by decide)⟩
